import Mathlib

/-!
Verification of the IISH archivematica-storage-service import/sharding core

Shallow embedding of `common/utils.py` and
`common/management/commands/import_aip.py`.

Conventions of the embedding:

* Python strings are Lean `String`s; where proofs need character-level
  reasoning we work on `String.data : List Char`.
* Python's `str.replace("-", "")` removes every dash, embedded as
  `List.filter (fun c => c != '-')` on the character list.
* `os.path.join` (POSIX) is embedded by `joinTwo`: a component starting
  with `'/'` resets the accumulated path, otherwise a single `'/'`
  separator is interposed unless the accumulator already ends in `'/'`.
* Fallible Python code (functions that can raise) returns `Except`.
* External effects (filesystem probes, tar extraction, BagIt validation,
  glob, the Django ORM tables, the interactive confirmation prompt and
  the rsync exit status) are supplied by an `ImportEnv` record of oracles;
  the functions below consume them exactly where the Python code performs
  the corresponding call.
-/

/-! ## Character-level path helpers -/

/-- Characters after the last `'/'` of a path, i.e. `os.path.basename`
(`p[p.rfind('/') + 1 :]`): scanning left to right, a `'/'` resets the
accumulator. -/
def basenameChars (l : List Char) : List Char :=
  l.foldl (fun acc c => if c = '/' then [] else acc ++ [c]) []

/-- Embeds `os.path.basename` on strings. -/
def basename (p : String) : String :=
  String.mk (basenameChars p.data)

/-- One step of POSIX `os.path.join`: `join(acc, comp)`.  A component that
starts with `'/'` replaces the accumulated path; joining onto the empty
string yields the component; otherwise a `'/'` separator is interposed
unless the accumulator already ends in `'/'`. -/
def joinTwo (acc comp : List Char) : List Char :=
  if comp.head? = some '/' then comp
  else if acc = [] then comp
  else if acc.getLast? = some '/' then acc ++ comp
  else acc ++ '/' :: comp

/-- Embeds `os.path.join` on two strings. -/
def pathJoin (a b : String) : String :=
  String.mk (joinTwo a.data b.data)

/-- Specification-level join of non-empty separator-free segments with
`'/'`; `joinTwo`-folding agrees with it on such segments (proved below). -/
def interSlash : List (List Char) → List Char
  | [] => []
  | [x] => x
  | x :: xs => x ++ '/' :: interSlash xs

/-! ## `utils.uuid_to_path` (utils.py lines 292-300) -/

/-- The list slices `uuid[i:i + 4] for i in range(0, len(uuid), 4)`:
groups of four characters, the final group possibly shorter. -/
def chunk4 : List Char → List (List Char)
  | [] => []
  | a :: b :: c :: d :: rest => [a, b, c, d] :: chunk4 rest
  | l => [l]

/-- Embeds `utils.uuid_to_path`: strip dashes, cut into 4-character groups and
join the groups with `os.path.join(*path)`.  On an input whose
dash-stripped form is empty the Python `os.path.join(*[])` call raises
`TypeError`; the embedding returns `none` there. -/
def uuid_to_path (u : String) : Option String :=
  let stripped := u.data.filter (fun c => c != '-')
  match chunk4 stripped with
  | [] => none
  | c :: cs => some (String.mk (cs.foldl joinTwo c))

/-! ## Basic lemmas about the helpers -/

theorem chunk4_eq_nil_iff (l : List Char) : chunk4 l = [] ↔ l = [] := by
  constructor
  · intro h
    match l with
    | [] => rfl
    | a :: b :: c :: d :: rest => simp [chunk4] at h
    | [a] => simp [chunk4] at h
    | [a, b] => simp [chunk4] at h
    | [a, b, c] => simp [chunk4] at h
  · intro h; subst h; rfl

theorem chunk4_join : ∀ l : List Char, (chunk4 l).flatten = l
  | [] => by simp [chunk4]
  | [a] => by simp [chunk4]
  | [a, b] => by simp [chunk4]
  | [a, b, c] => by simp [chunk4]
  | a :: b :: c :: d :: rest => by
      simp [chunk4, chunk4_join rest]

theorem chunk4_ne_nil : ∀ (l : List Char), ∀ c ∈ chunk4 l, c ≠ []
  | [], c, hc => by simp [chunk4] at hc
  | [a], c, hc => by simp [chunk4] at hc; simp [hc]
  | [a, b], c, hc => by simp [chunk4] at hc; simp [hc]
  | [a, b, c'], c, hc => by simp [chunk4] at hc; simp [hc]
  | a :: b :: c' :: d :: rest, c, hc => by
      simp only [chunk4, List.mem_cons] at hc
      rcases hc with h | h
      · simp [h]
      · exact chunk4_ne_nil rest c h

theorem chunk4_mem_subset {l : List Char} {c : List Char} (hc : c ∈ chunk4 l)
    {x : Char} (hx : x ∈ c) : x ∈ l := by
  have : x ∈ (chunk4 l).flatten := List.mem_flatten.mpr ⟨c, hc, hx⟩
  rwa [chunk4_join] at this

/-- On a separator-free non-empty segment list, folding `joinTwo` produces
the plain `'/'`-interposed join. -/
theorem foldl_joinTwo (cs : List (List Char)) :
    ∀ acc : List Char, acc ≠ [] → acc.getLast? ≠ some '/' →
    (∀ c ∈ cs, c ≠ [] ∧ (∀ x ∈ c, x ≠ '/')) →
    cs.foldl joinTwo acc = interSlash (acc :: cs) := by
  induction cs with
  | nil => intro acc _ _ _; simp [interSlash]
  | cons c cs ih =>
    intro acc hacc hlast hcs
    obtain ⟨hcne, hcslash⟩ := hcs c (List.mem_cons_self c cs)
    have hhead : c.head? ≠ some '/' := by
      cases c with
      | nil => simp
      | cons y ys =>
        intro h
        simp only [List.head?, Option.some.injEq] at h
        exact hcslash y (List.mem_cons_self y ys) h
    have hjoin : joinTwo acc c = acc ++ '/' :: c := by
      unfold joinTwo
      rw [if_neg hhead, if_neg hacc, if_neg hlast]
    have hacc' : acc ++ '/' :: c ≠ [] := by simp
    have hlast' : (acc ++ '/' :: c).getLast? ≠ some '/' := by
      rw [List.getLast?_append_cons]
      cases c with
      | nil => exact absurd rfl hcne
      | cons y ys =>
        have : ('/' :: y :: ys).getLast? = (y :: ys).getLast? := by
          simp [List.getLast?]
        rw [this]
        intro h
        have hmem : (y :: ys).getLast (by simp) ∈ y :: ys := List.getLast_mem _
        rw [List.getLast?_eq_getLast _ (by simp)] at h
        injection h with h'
        exact hcslash _ hmem h'
    have hrest : ∀ d ∈ cs, d ≠ [] ∧ (∀ x ∈ d, x ≠ '/') :=
      fun d hd => hcs d (List.mem_cons_of_mem _ hd)
    calc (c :: cs).foldl joinTwo acc
        = cs.foldl joinTwo (joinTwo acc c) := by rw [List.foldl_cons]
      _ = cs.foldl joinTwo (acc ++ '/' :: c) := by rw [hjoin]
      _ = interSlash ((acc ++ '/' :: c) :: cs) := ih _ hacc' hlast' hrest
      _ = interSlash (acc :: c :: cs) := by
          cases cs with
          | nil => simp [interSlash]
          | cons e es => simp [interSlash, List.append_assoc]

/-- Filtering the separators back out of an `interSlash` join recovers the
concatenation of the (separator-free) segments. -/
theorem interSlash_filter : ∀ cs : List (List Char),
    (∀ c ∈ cs, ∀ x ∈ c, x ≠ '/') →
    (interSlash cs).filter (fun x => x != '/') = cs.flatten
  | [], _ => by simp [interSlash]
  | [c], h => by
      simp only [interSlash, List.flatten]
      rw [List.filter_eq_self.mpr]
      · simp
      · intro a ha
        simpa using h c (by simp) a ha
  | c :: c' :: cs, h => by
      have hc : ∀ x ∈ c, x ≠ '/' := h c (by simp)
      have hrest : ∀ d ∈ c' :: cs, ∀ x ∈ d, x ≠ '/' :=
        fun d hd => h d (List.mem_cons_of_mem _ hd)
      simp only [interSlash, List.flatten, List.filter_append, List.filter_cons]
      rw [List.filter_eq_self.mpr (by intro a ha; simpa using hc a ha)]
      have : (('/' : Char) != '/') = false := by decide
      rw [this]
      simp only [Bool.false_eq_true, if_false]
      rw [interSlash_filter (c' :: cs) hrest]
      simp [List.flatten]

/-! ## Canonical UUID strings and injectivity of the sharding -/

/-- Hexadecimal digit (either case). -/
def IsHexChar (c : Char) : Bool :=
  c.isDigit || (decide ('a' ≤ c) && decide (c ≤ 'f')) || (decide ('A' ≤ c) && decide (c ≤ 'F'))

/-- Canonical UUID string shape: five hex-digit groups of lengths
8-4-4-4-12 separated by single dashes (36 characters in total). -/
def IsUUID (s : String) : Prop :=
  ∃ a b c d e : List Char,
    s.data = a ++ '-' :: (b ++ '-' :: (c ++ '-' :: (d ++ '-' :: e))) ∧
    a.length = 8 ∧ b.length = 4 ∧ c.length = 4 ∧ d.length = 4 ∧ e.length = 12 ∧
    (a ++ b ++ c ++ d ++ e).all IsHexChar = true

theorem hex_ne_dash {c : Char} (h : IsHexChar c = true) : c ≠ '-' := by
  intro hc; subst hc; simp [IsHexChar] at h

theorem hex_ne_slash {c : Char} (h : IsHexChar c = true) : c ≠ '/' := by
  intro hc; subst hc; simp [IsHexChar] at h

/-- Re-inserting the dashes of the canonical 8-4-4-4-12 layout into a
32-character dash-stripped identifier. -/
def insertDashes (l : List Char) : List Char :=
  l.take 8 ++ '-' :: ((l.drop 8).take 4 ++ '-' ::
    (((l.drop 8).drop 4).take 4 ++ '-' ::
      ((((l.drop 8).drop 4).drop 4).take 4 ++ '-' ::
        ((((l.drop 8).drop 4).drop 4).drop 4))))

theorem filter_ne_dash_of_all_hex {l : List Char} (h : l.all IsHexChar = true) :
    l.filter (fun c => c != '-') = l := by
  rw [List.filter_eq_self]
  intro a ha
  have := List.all_eq_true.mp h a ha
  simpa using hex_ne_dash this

/-- For a canonical UUID, every `uuid_to_path` group consists of hex digits,
and the stripped identifier is exactly the five groups concatenated. -/
theorem stripped_of_uuid {s : String} (h : IsUUID s) :
    ∃ a b c d e : List Char,
      s.data = a ++ '-' :: (b ++ '-' :: (c ++ '-' :: (d ++ '-' :: e))) ∧
      a.length = 8 ∧ b.length = 4 ∧ c.length = 4 ∧ d.length = 4 ∧ e.length = 12 ∧
      (a ++ b ++ c ++ d ++ e).all IsHexChar = true ∧
      s.data.filter (fun c => c != '-') = a ++ (b ++ (c ++ (d ++ e))) := by
  obtain ⟨a, b, c, d, e, hdata, ha, hb, hc, hd, he, hhex⟩ := h
  refine ⟨a, b, c, d, e, hdata, ha, hb, hc, hd, he, hhex, ?_⟩
  have hhex' : ∀ x ∈ a ++ b ++ c ++ d ++ e, IsHexChar x = true := List.all_eq_true.mp hhex
  have hfa : a.filter (fun x => x != '-') = a :=
    filter_ne_dash_of_all_hex (List.all_eq_true.mpr (fun x hx => hhex' x (by simp [hx])))
  have hfb : b.filter (fun x => x != '-') = b :=
    filter_ne_dash_of_all_hex (List.all_eq_true.mpr (fun x hx => hhex' x (by simp [hx])))
  have hfc : c.filter (fun x => x != '-') = c :=
    filter_ne_dash_of_all_hex (List.all_eq_true.mpr (fun x hx => hhex' x (by simp [hx])))
  have hfd : d.filter (fun x => x != '-') = d :=
    filter_ne_dash_of_all_hex (List.all_eq_true.mpr (fun x hx => hhex' x (by simp [hx])))
  have hfe : e.filter (fun x => x != '-') = e :=
    filter_ne_dash_of_all_hex (List.all_eq_true.mpr (fun x hx => hhex' x (by simp [hx])))
  rw [hdata]
  simp only [List.filter_append, List.filter_cons]
  have hdash : (('-' : Char) != '-') = false := by decide
  rw [hdash]
  simp only [Bool.false_eq_true, if_false, hfa, hfb, hfc, hfd, hfe]

theorem insertDashes_recovers {a b c d e : List Char}
    (ha : a.length = 8) (hb : b.length = 4) (hc : c.length = 4) (hd : d.length = 4) :
    insertDashes (a ++ (b ++ (c ++ (d ++ e)))) =
      a ++ '-' :: (b ++ '-' :: (c ++ '-' :: (d ++ '-' :: e))) := by
  unfold insertDashes
  rw [List.take_left' ha, List.drop_left' ha,
      List.take_left' hb, List.drop_left' hb,
      List.take_left' hc, List.drop_left' hc,
      List.take_left' hd, List.drop_left' hd]

/-- Round trip: a canonical UUID can be recovered from its sharded path by
deleting the separators and re-inserting the dashes.  This is the heart of
the injectivity argument. -/
theorem uuid_to_path_roundtrip {s : String} (h : IsUUID s) :
    ∃ p : String, uuid_to_path s = some p ∧
      insertDashes (p.data.filter (fun x => x != '/')) = s.data := by
  obtain ⟨a, b, c, d, e, hdata, ha, hb, hc, hd, he, hhex, hstrip⟩ := stripped_of_uuid h
  set strip := s.data.filter (fun x => x != '-') with hstripdef
  have hne : strip ≠ [] := by
    rw [hstrip]
    intro hcon
    have : a = [] := by
      rcases List.append_eq_nil.mp hcon with ⟨h1, _⟩
      exact h1
    rw [this] at ha
    simp at ha
  have hstriphex : ∀ x ∈ strip, IsHexChar x = true := by
    intro x hx
    rw [hstrip] at hx
    refine List.all_eq_true.mp hhex x ?_
    simp only [List.append_assoc]
    simpa using hx
  obtain ⟨c0, cs, hchunk⟩ : ∃ c0 cs, chunk4 strip = c0 :: cs := by
    cases hch : chunk4 strip with
    | nil => exact absurd ((chunk4_eq_nil_iff strip).mp hch) hne
    | cons c0 cs => exact ⟨c0, cs, rfl⟩
  have hmemchunks : ∀ g ∈ chunk4 strip, g ≠ [] ∧ (∀ x ∈ g, x ≠ '/') := by
    intro g hg
    refine ⟨chunk4_ne_nil strip g hg, ?_⟩
    intro x hx
    exact hex_ne_slash (hstriphex x (chunk4_mem_subset hg hx))
  have hc0 := hmemchunks c0 (by rw [hchunk]; exact List.mem_cons_self _ _)
  have hcs : ∀ g ∈ cs, g ≠ [] ∧ (∀ x ∈ g, x ≠ '/') := by
    intro g hg
    exact hmemchunks g (by rw [hchunk]; exact List.mem_cons_of_mem _ hg)
  have hlast : c0.getLast? ≠ some '/' := by
    intro hcon
    have hmem : c0.getLast (hc0.1) ∈ c0 := List.getLast_mem _
    rw [List.getLast?_eq_getLast _ hc0.1] at hcon
    injection hcon with h'
    exact hc0.2 _ hmem h'
  have hfold : cs.foldl joinTwo c0 = interSlash (c0 :: cs) :=
    foldl_joinTwo cs c0 hc0.1 hlast hcs
  refine ⟨String.mk (cs.foldl joinTwo c0), ?_, ?_⟩
  · unfold uuid_to_path
    dsimp only
    rw [hchunk]
  · have hdatamk : (String.mk (cs.foldl joinTwo c0)).data = cs.foldl joinTwo c0 := rfl
    rw [hdatamk, hfold, ← hchunk,
        interSlash_filter (chunk4 strip) (fun g hg => (hmemchunks g hg).2),
        chunk4_join, hstrip, insertDashes_recovers ha hb hc hd, ← hdata]

/-- C1: on canonical UUID strings the sharding `uuid_to_path` is injective:
two UUIDs produce the same sharded path exactly when they are the same
string. -/
theorem uuid_to_path_injective (X Y : String) (hX : IsUUID X) (hY : IsUUID Y) :
    uuid_to_path X = uuid_to_path Y ↔ X = Y := by
  constructor
  · intro hpath
    obtain ⟨pX, hpX, hrX⟩ := uuid_to_path_roundtrip hX
    obtain ⟨pY, hpY, hrY⟩ := uuid_to_path_roundtrip hY
    rw [hpX, hpY] at hpath
    injection hpath with hp
    subst hp
    have hdata : X.data = Y.data := by rw [← hrX, ← hrY]
    cases X with
    | mk dx =>
      cases Y with
      | mk dy =>
        have hxy : dx = dy := by simpa using hdata
        rw [hxy]
  · intro h; rw [h]

/-- C1 witness: two concrete distinct canonical UUIDs. -/
theorem uuid_to_path_injective_witness :
    IsUUID "e0a41934-c1d7-45ba-9a95-a7531c063ed1" ∧
    IsUUID "e0a41934-c1d7-45ba-9a95-a7531c063ed2" ∧
    (uuid_to_path "e0a41934-c1d7-45ba-9a95-a7531c063ed1" =
        uuid_to_path "e0a41934-c1d7-45ba-9a95-a7531c063ed2" ↔
      ("e0a41934-c1d7-45ba-9a95-a7531c063ed1" : String) =
        "e0a41934-c1d7-45ba-9a95-a7531c063ed2") := by
  have hA : IsUUID "e0a41934-c1d7-45ba-9a95-a7531c063ed1" :=
    ⟨"e0a41934".data, "c1d7".data, "45ba".data, "9a95".data, "a7531c063ed1".data,
      by decide, by decide, by decide, by decide, by decide, by decide, by decide⟩
  have hB : IsUUID "e0a41934-c1d7-45ba-9a95-a7531c063ed2" :=
    ⟨"e0a41934".data, "c1d7".data, "45ba".data, "9a95".data, "a7531c063ed2".data,
      by decide, by decide, by decide, by decide, by decide, by decide, by decide⟩
  exact ⟨hA, hB, uuid_to_path_injective _ _ hA hB⟩

/-- C10: `uuid_to_path` is partial exactly at inputs whose dash-stripped
form is empty (the empty string, any all-dash string): there Python's
`os.path.join(*[])` raises `TypeError`, embedded as `none`; on every other
input a path is returned. -/
theorem uuid_to_path_none_iff :
    uuid_to_path "" = none ∧ uuid_to_path "----" = none ∧
    ∀ u : String, uuid_to_path u = none ↔ u.data.filter (fun c => c != '-') = [] := by
  refine ⟨by decide, by decide, ?_⟩
  intro u
  unfold uuid_to_path
  dsimp only
  cases hch : chunk4 (List.filter (fun c => c != '-') u.data) with
  | nil =>
    have h0 := (chunk4_eq_nil_iff _).mp hch
    simp [h0]
  | cons c0 cs =>
    simp only [reduceCtorEq, false_iff]
    intro hcon
    rw [hcon] at hch
    simp [chunk4] at hch

/-! ## `os.path.normpath` (POSIX) -/

/-- Python `str.split('/')` at character level. -/
def splitSlash (l : List Char) : List (List Char) :=
  l.foldr
    (fun c acc =>
      if c = '/' then [] :: acc
      else
        match acc with
        | [] => [[c]]
        | x :: xs => (c :: x) :: xs)
    [[]]

/-- One component step of `posixpath.normpath`: drop empty and `'.'`
components, let `'..'` pop the previous component except at the start of a
relative path or after an unpopped `'..'`. -/
def normStep (isAbs : Bool) (acc : List String) (comp : String) : List String :=
  if comp = "" || comp = "." then acc
  else if comp = ".." then
    if (!isAbs && acc.isEmpty) ||
        (match acc.getLast? with | some x => x == ".." | none => false) then
      acc ++ [comp]
    else if !acc.isEmpty then acc.dropLast
    else acc
  else acc ++ [comp]

/-- Embeds `posixpath.normpath` (the POSIX double-initial-slash special case is
not modelled; it never arises in this pipeline). -/
def normpath (p : String) : String :=
  if p.data = [] then "." else
  let isAbs : Bool := p.data.head? == some '/'
  let comps := (splitSlash p.data).map String.mk
  let nc := comps.foldl (normStep isAbs) []
  let joined := interSlash (nc.map String.data)
  let result := if isAbs then '/' :: joined else joined
  if result = [] then "." else String.mk result

/-! ## Data model of the import pipeline (import_aip.py) -/

/-- Embeds `locations.models.Location`, reduced to the fields the command reads. -/
structure Location where
  uuid : String
  full_path : String
deriving DecidableEq, Repr

/-- Embeds `locations.models.Package`, reduced to the fields the command writes. -/
structure Package where
  uuid : String
  package_type : String
  status : String
  size : Nat
  current_path : String
  origin_pipeline : Option String
  current_location : String
deriving DecidableEq, Repr

/-- The exceptions the pipeline can abort with.  All but `settingMissing`,
`joinTypeError` and `integrity` are `ImportAIPException`s; those three model
the uncaught `Settings.DoesNotExist`, the `TypeError` from
`os.path.join(*[])`, and a second `IntegrityError` at save time. -/
inductive ImportErr where
  | nothingAt (p : String)
  | cannotDecompress (p : String)
  | invalidBag (p : String)
  | noMets (p : String)
  | alreadyExists (u : String)
  | settingMissing (n : String)
  | noLocation (u : String)
  | noPipeline (u : String)
  | rsyncFailed (src dst : String)
  | joinTypeError
  | integrity
deriving DecidableEq, Repr

/-- External side effects performed by the placement step, in order. -/
inductive Effect where
  | mkdirFx (dir : String)
  | rsyncFx (src dst : String)
  | chownFx (root : String)
deriving DecidableEq, Repr

/-- Oracles for every external interaction of the command: filesystem
probes, tar extraction, BagIt validation, the METS glob, the interactive
confirmation prompt, the Settings/Location/Pipeline tables, the rsync exit
status and the bag payload file sizes. -/
structure ImportEnv where
  pathExists : String → Bool
  isFile : String → Bool
  extractResult : String
  bagValid : String → Bool
  metsGlob : String → List String
  userConfirms : Bool
  settingsDefaultAS : Option String
  locations : List Location
  pipelines : List String
  rsyncOk : String → String → Bool
  payload : String → List Nat

def DEFAULT_AS_LOCATION : String := "default_AS_location"

/-! ## Pipeline steps -/

/-- Embeds `is_compressed`: `os.path.isfile(aip_path)`. -/
def is_compressed (env : ImportEnv) (aip_path : String) : Bool :=
  env.isFile aip_path

/-- Python `str.endswith('.tar.gz')`. -/
def endsWithTarGz (p : String) : Bool :=
  ".tar.gz".data.isSuffixOf p.data

/-- Embeds `decompress`: refuses any archive name not ending in `.tar.gz`,
otherwise extracts to a scratch directory and returns
`os.path.join(temp_dir, aip_root_dir)` (the oracle `extractResult`). -/
def decompress (env : ImportEnv) (aip_path : String) : Except ImportErr String :=
  if endsWithTarGz aip_path then .ok env.extractResult
  else .error (.cannotDecompress aip_path)

/-- Embeds `confirm_aip_exists`. -/
def confirm_aip_exists (env : ImportEnv) (aip_path : String) : Except ImportErr Unit :=
  if env.pathExists aip_path then .ok () else .error (.nothingAt aip_path)

/-- Embeds `decompress_aip`: only file sources are decompressed; a directory is
passed through untouched. -/
def decompress_aip (env : ImportEnv) (aip_path : String) : Except ImportErr String :=
  if is_compressed env aip_path then decompress env aip_path else .ok aip_path

/-- Embeds `validate`: `bagit.Bag(aip_path).is_valid()` via the oracle. -/
def validate (env : ImportEnv) (aip_path : String) : Except ImportErr Unit :=
  if env.bagValid aip_path then .ok () else .error (.invalidBag aip_path)

/-- Embeds `get_aip_mets_path`: first result of `glob(join(path, 'data', 'METS*xml'))`. -/
def get_aip_mets_path (env : ImportEnv) (aip_path : String) : Except ImportErr String :=
  match env.metsGlob aip_path with
  | [] => .error (.noMets aip_path)
  | m :: _ => .ok m

/-- Embeds `get_aip_uuid`: `os.path.basename(aip_mets_path)[5:41]`. -/
def get_aip_uuid (aip_mets_path : String) : String :=
  String.mk (((basenameChars aip_mets_path.data).drop 5).take 36)

/-- Embeds `get_aip_storage_location`: the sentinel default location name is
resolved through the Settings table; the Location row is then looked up
by UUID. -/
def get_aip_storage_location (env : ImportEnv) (aip_storage_location_uuid : String) :
    Except ImportErr Location :=
  let resolved : Except ImportErr String :=
    if aip_storage_location_uuid = DEFAULT_AS_LOCATION then
      match env.settingsDefaultAS with
      | some v => .ok v
      | none => .error (.settingMissing aip_storage_location_uuid)
    else .ok aip_storage_location_uuid
  match resolved with
  | .error e => .error e
  | .ok uu =>
    match env.locations.find? (fun loc => loc.uuid == uu) with
    | some loc => .ok loc
    | none => .error (.noLocation uu)

/-- Embeds `check_if_aip_already_exists`: refuse (unless the user confirms at the
prompt) when any package row with the same UUID exists. -/
def check_if_aip_already_exists (db : List Package) (env : ImportEnv) (aip_uuid : String) :
    Except ImportErr Unit :=
  if db.filter (fun p => p.uuid == aip_uuid) = [] then .ok ()
  else if env.userConfirms then .ok ()
  else .error (.alreadyExists aip_uuid)

/-- Embeds `get_pipeline`: an explicitly requested pipeline must exist; otherwise
`Pipeline.objects.first()` (the head of the table, if any). -/
def get_pipeline (env : ImportEnv) (adoptive_pipeline_uuid : Option String) :
    Except ImportErr (Option String) :=
  match adoptive_pipeline_uuid with
  | some p => if env.pipelines.contains p then .ok (some p) else .error (.noPipeline p)
  | none => .ok env.pipelines.head?

/-- Modelled from the spec: `utils.recalculate_size` is called by
`import_aip` but its definition is not among the provided source files;
per the spec the size recorded for the package is "the sum of the bag's
payload file sizes". -/
def recalculate_size (payloadSizes : List Nat) : Nat :=
  payloadSizes.sum

/-- Embeds `copy_rsync`: the source is normalised with `os.path.join(source, '')`
(trailing slash) and rsync is spawned; a non-zero exit status raises. -/
def copy_rsync (env : ImportEnv) (source destination : String) :
    List Effect × Except ImportErr Unit :=
  let src := pathJoin source ""
  ([Effect.rsyncFx src destination],
    if env.rsyncOk src destination then .ok () else .error (.rsyncFailed src destination))

/-- Embeds `copy_aip_to_aip_storage_location`: derive the sharded home from the
UUID, create it, rsync the AIP beneath it, record `current_path`
(relative to the location root) and normalise ownership. -/
def copy_aip_to_aip_storage_location (env : ImportEnv) (aip_model_inst : Package)
    (aip_path : String) (aip_storage_location : Location) :
    List Effect × Except ImportErr Package :=
  match uuid_to_path aip_model_inst.uuid with
  | none => ([], .error .joinTypeError)
  | some aip_uuid_path =>
    let aip_storage_location_path := aip_storage_location.full_path
    let aip_new_home := pathJoin aip_storage_location_path aip_uuid_path
    let current_path := pathJoin aip_uuid_path (basename (normpath aip_path))
    let (fx, r) := copy_rsync env aip_path (pathJoin aip_storage_location_path current_path)
    match r with
    | .error e => (Effect.mkdirFx aip_new_home :: fx, .error e)
    | .ok _ =>
      (Effect.mkdirFx aip_new_home :: fx ++
          [Effect.chownFx (pathJoin aip_storage_location_path
            (String.mk (aip_model_inst.uuid.data.take 4)))],
        .ok { aip_model_inst with current_path := current_path })

/-- A single ORM `save()` of a new `Package` row: the `uuid` column is
unique, so the insert raises `IntegrityError` exactly when a row with the
same UUID is already present. -/
def package_save (db : List Package) (pkg : Package) : Except Unit (List Package) :=
  if db.any (fun p => p.uuid == pkg.uuid) then .error () else .ok (db ++ [pkg])

/-- Embeds `save_aip_model_instance`: on `IntegrityError` delete every row with
the conflicting UUID and retry the save exactly once; the retried save is
not wrapped in a handler. -/
def save_aip_model_instance (db : List Package) (pkg : Package) :
    Except Unit (List Package) :=
  match package_save db pkg with
  | .ok db' => .ok db'
  | .error _ => package_save (db.filter (fun p => !(p.uuid == pkg.uuid))) pkg

instance {ε α : Type} [DecidableEq ε] [DecidableEq α] : DecidableEq (Except ε α) := fun
  | .ok a, .ok b =>
      if h : a = b then .isTrue (by rw [h])
      else .isFalse (by intro hc; injection hc; contradiction)
  | .error a, .error b =>
      if h : a = b then .isTrue (by rw [h])
      else .isFalse (by intro hc; injection hc; contradiction)
  | .ok _, .error _ => .isFalse (by intro hc; cases hc)
  | .error _, .ok _ => .isFalse (by intro hc; cases hc)

/-- Result of one `import_aip` run: the package table afterwards, the
external effects performed, and either the saved package or the exception. -/
structure ImportResult where
  db : List Package
  fx : List Effect
  res : Except ImportErr Package
deriving DecidableEq, Repr

/-- Embeds `import_aip`: the ordered pipeline.  Every failing step short-circuits
with the table untouched; the save is the final step. -/
def import_aip (env : ImportEnv) (db : List Package) (aip_path : String)
    (aip_storage_location_uuid : String) (adoptive_pipeline_uuid : Option String) :
    ImportResult :=
  match confirm_aip_exists env aip_path with
  | .error e => ⟨db, [], .error e⟩
  | .ok _ =>
  match decompress_aip env aip_path with
  | .error e => ⟨db, [], .error e⟩
  | .ok path =>
  match validate env path with
  | .error e => ⟨db, [], .error e⟩
  | .ok _ =>
  match get_aip_mets_path env path with
  | .error e => ⟨db, [], .error e⟩
  | .ok mets =>
  match check_if_aip_already_exists db env (get_aip_uuid mets) with
  | .error e => ⟨db, [], .error e⟩
  | .ok _ =>
  match get_aip_storage_location env aip_storage_location_uuid with
  | .error e => ⟨db, [], .error e⟩
  | .ok loc =>
  match get_pipeline env adoptive_pipeline_uuid with
  | .error e => ⟨db, [], .error e⟩
  | .ok pl =>
  match copy_aip_to_aip_storage_location env
      { uuid := get_aip_uuid mets, package_type := "AIP", status := "UPLOADED",
        size := recalculate_size (env.payload path), current_path := "",
        origin_pipeline := pl, current_location := loc.uuid }
      path loc with
  | (fx, .error e) => ⟨db, fx, .error e⟩
  | (fx, .ok pkg) =>
  match save_aip_model_instance db pkg with
  | .ok db' => ⟨db', fx, .ok pkg⟩
  | .error _ => ⟨db, fx, .error .integrity⟩

/-! ## Theorems about the pipeline steps -/

/-- C5: the decompression step accepts only recognized extensions — for
any file path not ending in `.tar.gz`, `decompress` raises an import
error; for a directory source (`os.path.isfile` false) `decompress_aip`
returns the path unchanged without attempting decompression. -/
theorem decompress_extension_guard (env : ImportEnv) (p : String) :
    (endsWithTarGz p = false → decompress env p = .error (.cannotDecompress p)) ∧
    (env.isFile p = false → decompress_aip env p = .ok p) := by
  constructor
  · intro h
    unfold decompress
    rw [h]
    simp
  · intro h
    unfold decompress_aip is_compressed
    rw [h]
    simp

/-- A concrete environment in which every source path is a directory. -/
def envW5 : ImportEnv :=
  { pathExists := fun _ => true, isFile := fun _ => false,
    extractResult := "/tmp/scratch", bagValid := fun _ => true,
    metsGlob := fun _ => [], userConfirms := false, settingsDefaultAS := none,
    locations := [], pipelines := [], rsyncOk := fun _ _ => true,
    payload := fun _ => [] }

/-- C5 witness: a `.zip` file is refused and a directory passes through. -/
theorem decompress_extension_guard_witness :
    endsWithTarGz "/tmp/aip.zip" = false ∧
    decompress envW5 "/tmp/aip.zip" = .error (.cannotDecompress "/tmp/aip.zip") ∧
    envW5.isFile "/data/aipdir" = false ∧
    decompress_aip envW5 "/data/aipdir" = .ok "/data/aipdir" :=
  ⟨by decide,
   (decompress_extension_guard envW5 "/tmp/aip.zip").1 (by decide),
   by decide,
   (decompress_extension_guard envW5 "/data/aipdir").2 (by decide)⟩

/-- After deleting every row with the conflicting UUID, the unique
constraint cannot fire again. -/
theorem package_save_after_delete (db : List Package) (pkg : Package) :
    package_save (db.filter (fun p => !(p.uuid == pkg.uuid))) pkg =
      .ok (db.filter (fun p => !(p.uuid == pkg.uuid)) ++ [pkg]) := by
  unfold package_save
  rw [if_neg]
  intro hcon
  obtain ⟨q, hq, hquuid⟩ := List.any_eq_true.mp hcon
  have := (List.mem_filter.mp hq).2
  rw [hquuid] at this
  simp at this

/-- C6: `save_aip_model_instance` — a uniqueness violation at save time
deletes every row with the same UUID and retries the save exactly once
(the bare second `package_save`, not wrapped in a handler); without a
conflict the first save succeeds and nothing is deleted. -/
theorem save_aip_retry_once (db : List Package) (pkg : Package) :
    (db.any (fun p => p.uuid == pkg.uuid) = false →
      save_aip_model_instance db pkg = .ok (db ++ [pkg])) ∧
    (db.any (fun p => p.uuid == pkg.uuid) = true →
      save_aip_model_instance db pkg =
        package_save (db.filter (fun p => !(p.uuid == pkg.uuid))) pkg ∧
      save_aip_model_instance db pkg =
        .ok (db.filter (fun p => !(p.uuid == pkg.uuid)) ++ [pkg])) := by
  constructor
  · intro h
    unfold save_aip_model_instance package_save
    rw [h]
    simp
  · intro h
    have hfirst : package_save db pkg = .error () := by
      unfold package_save
      rw [h]
      simp
    constructor
    · unfold save_aip_model_instance
      rw [hfirst]
    · unfold save_aip_model_instance
      rw [hfirst, package_save_after_delete]

/-- A pre-existing package row used as the conflicting record. -/
def pkgOldW : Package :=
  { uuid := "e0a41934-c1d7-45ba-9a95-a7531c063ed1", package_type := "AIP",
    status := "UPLOADED", size := 7, current_path := "e0a4/old-copy",
    origin_pipeline := none, current_location := "loc-1" }

/-- A freshly imported package row with the same UUID as `pkgOldW`. -/
def pkgNewW : Package :=
  { uuid := "e0a41934-c1d7-45ba-9a95-a7531c063ed1", package_type := "AIP",
    status := "UPLOADED", size := 30,
    current_path := "e0a4/1934/c1d7/45ba/9a95/a753/1c06/3ed1/aip-dir",
    origin_pipeline := some "pipe-1", current_location := "loc-1" }

/-- C6 witness: a concrete conflicting row is deleted and the retried save
succeeds; a conflict-free save succeeds immediately. -/
theorem save_aip_retry_once_witness :
    ([pkgOldW].any (fun p => p.uuid == pkgNewW.uuid) = true ∧
      save_aip_model_instance [pkgOldW] pkgNewW = .ok [pkgNewW]) ∧
    (([] : List Package).any (fun p => p.uuid == pkgNewW.uuid) = false ∧
      save_aip_model_instance [] pkgNewW = .ok [pkgNewW]) := by
  constructor
  · refine ⟨by decide, ?_⟩
    have h := ((save_aip_retry_once [pkgOldW] pkgNewW).2 (by decide)).2
    rw [h]
    decide
  · refine ⟨by decide, ?_⟩
    have h := (save_aip_retry_once [] pkgNewW).1 (by decide)
    rw [h]
    decide

/-- Every run of the pipeline either succeeds or leaves the package table
exactly as it found it: the table is only touched by the final save. -/
theorem import_db_cases (env : ImportEnv) (db : List Package) (p l : String)
    (pl : Option String) :
    (import_aip env db p l pl).db = db ∨
    ∃ pkg, (import_aip env db p l pl).res = .ok pkg := by
  unfold import_aip
  repeat' split
  all_goals simp

/-- C3: the database write is the last pipeline step — whenever any
earlier step raises (missing source, decompression, bag validation, METS
lookup, duplicate check, location or pipeline resolution, the sharded-path
computation or a non-zero rsync exit), `import_aip` returns that error and
the package table is unchanged, so no record is persisted that references
bytes that were not fully transferred. -/
theorem import_aip_db_write_last (env : ImportEnv) (db : List Package)
    (p l : String) (pl : Option String) (e : ImportErr)
    (h : (import_aip env db p l pl).res = .error e) :
    (import_aip env db p l pl).db = db := by
  rcases import_db_cases env db p l pl with hdb | ⟨pkg, hok⟩
  · exact hdb
  · rw [hok] at h
    cases h

/-- A concrete environment whose rsync invocation always exits non-zero. -/
def envRsyncFail : ImportEnv :=
  { pathExists := fun _ => true, isFile := fun _ => true,
    extractResult := "/tmp/xyz/aip-dir", bagValid := fun _ => true,
    metsGlob := fun _ =>
      ["/tmp/xyz/aip-dir/data/METS.e0a41934-c1d7-45ba-9a95-a7531c063ed1.xml"],
    userConfirms := true, settingsDefaultAS := some "loc-1",
    locations := [⟨"loc-1", "/var/aipstore"⟩], pipelines := ["pipe-1"],
    rsyncOk := fun _ _ => false, payload := fun _ => [10, 20] }

/-- C3 witness: a run whose rsync transfer fails leaves the table empty. -/
theorem import_aip_db_write_last_witness :
    (import_aip envRsyncFail [] "/tmp/archive.tar.gz" "loc-1" none).res =
      .error (.rsyncFailed "/tmp/xyz/aip-dir/"
        "/var/aipstore/e0a4/1934/c1d7/45ba/9a95/a753/1c06/3ed1/aip-dir") ∧
    (import_aip envRsyncFail [] "/tmp/archive.tar.gz" "loc-1" none).db = [] :=
  ⟨by decide, import_aip_db_write_last envRsyncFail [] "/tmp/archive.tar.gz" "loc-1" none
    (.rsyncFailed "/tmp/xyz/aip-dir/"
      "/var/aipstore/e0a4/1934/c1d7/45ba/9a95/a753/1c06/3ed1/aip-dir")
    (by decide)⟩

/-- One ORM save always ends in a row with the package's UUID being
present exactly once more: a conflicting row set is deleted first. -/
theorem save_aip_spec (db : List Package) (pkg : Package) :
    save_aip_model_instance db pkg =
      .ok ((if db.any (fun p => p.uuid == pkg.uuid) then
        db.filter (fun p => !(p.uuid == pkg.uuid)) else db) ++ [pkg]) := by
  by_cases h : db.any (fun p => p.uuid == pkg.uuid) = true
  · have h1 : package_save db pkg = .error () := by
      unfold package_save
      rw [if_pos h]
    unfold save_aip_model_instance
    rw [h1, package_save_after_delete, if_pos h]
  · have h1 : package_save db pkg = .ok (db ++ [pkg]) := by
      unfold package_save
      rw [if_neg h]
    unfold save_aip_model_instance
    rw [h1, if_neg h]

/-- The package record built by a successful run of the pipeline. -/
def importedPackage (env : ImportEnv) (loc : Location) (pl' : Option String)
    (path mets upath : String) : Package :=
  { uuid := get_aip_uuid mets, package_type := "AIP", status := "UPLOADED",
    size := recalculate_size (env.payload path),
    current_path := pathJoin upath (basename (normpath path)),
    origin_pipeline := pl', current_location := loc.uuid }

/-- The external effects of a successful placement, in order. -/
def importedEffects (loc : Location) (path mets upath : String) : List Effect :=
  [Effect.mkdirFx (pathJoin loc.full_path upath),
   Effect.rsyncFx (pathJoin path "")
     (pathJoin loc.full_path (pathJoin upath (basename (normpath path)))),
   Effect.chownFx (pathJoin loc.full_path (String.mk ((get_aip_uuid mets).data.take 4)))]

/-- A run of `import_aip` in which every external step succeeds: the saved
record, the final table and the effect trace, computed in closed form. -/
theorem import_run_ok (env : ImportEnv) (db : List Package) (p l : String)
    (pl : Option String) (loc : Location) (pl' : Option String)
    (path mets upath : String) (mrest : List String)
    (h1 : env.pathExists p = true)
    (h2 : decompress_aip env p = .ok path)
    (h3 : env.bagValid path = true)
    (h4 : env.metsGlob path = mets :: mrest)
    (h5 : db.filter (fun q => q.uuid == get_aip_uuid mets) = [] ∨ env.userConfirms = true)
    (h6 : get_aip_storage_location env l = .ok loc)
    (h7 : get_pipeline env pl = .ok pl')
    (h8 : uuid_to_path (get_aip_uuid mets) = some upath)
    (h9 : ∀ s d, env.rsyncOk s d = true) :
    import_aip env db p l pl =
      ⟨(if db.any (fun q => q.uuid == get_aip_uuid mets) then
          db.filter (fun q => !(q.uuid == get_aip_uuid mets)) else db) ++
        [importedPackage env loc pl' path mets upath],
        importedEffects loc path mets upath,
        .ok (importedPackage env loc pl' path mets upath)⟩ := by
  have hconfirm : confirm_aip_exists env p = .ok () := by
    unfold confirm_aip_exists
    rw [h1]
    simp
  have hvalidate : validate env path = .ok () := by
    unfold validate
    rw [h3]
    simp
  have hmets : get_aip_mets_path env path = .ok mets := by
    unfold get_aip_mets_path
    rw [h4]
  have hcheck : check_if_aip_already_exists db env (get_aip_uuid mets) = .ok () := by
    unfold check_if_aip_already_exists
    rcases h5 with h | h
    · rw [if_pos h]
    · rw [h]
      split
      · rfl
      · simp
  have hcopy : copy_aip_to_aip_storage_location env
      { uuid := get_aip_uuid mets, package_type := "AIP", status := "UPLOADED",
        size := recalculate_size (env.payload path), current_path := "",
        origin_pipeline := pl', current_location := loc.uuid }
      path loc =
      (importedEffects loc path mets upath,
        .ok (importedPackage env loc pl' path mets upath)) := by
    unfold copy_aip_to_aip_storage_location
    simp only [h8]
    unfold copy_rsync
    simp only [h9, if_true]
    rfl
  have hsave := save_aip_spec db (importedPackage env loc pl' path mets upath)
  simp only [import_aip, hconfirm, h2, hvalidate, hmets, hcheck, h6, h7, hcopy, hsave]
  rfl

/-- C2: importing an AIP whose extracted UUID already has a package row —
without confirmation at the prompt the run aborts with the
already-exists error before any effect is performed (no mkdir/rsync/chown)
and the table, hence the existing record, is untouched; with confirmation
the run succeeds, every prior row with that UUID is removed at save time
and the only row carrying the UUID afterwards is the new record. -/
theorem import_aip_duplicate_uuid (env : ImportEnv) (db : List Package)
    (p l : String) (pl : Option String) (path mets : String) (mrest : List String)
    (pkgOld : Package)
    (h1 : env.pathExists p = true)
    (h2 : decompress_aip env p = .ok path)
    (h3 : env.bagValid path = true)
    (h4 : env.metsGlob path = mets :: mrest)
    (hold : pkgOld ∈ db) (holdu : pkgOld.uuid = get_aip_uuid mets) :
    (env.userConfirms = false →
      import_aip env db p l pl =
        ⟨db, [], .error (.alreadyExists (get_aip_uuid mets))⟩) ∧
    (env.userConfirms = true →
      ∀ (loc : Location) (pl' : Option String) (upath : String),
        get_aip_storage_location env l = .ok loc →
        get_pipeline env pl = .ok pl' →
        uuid_to_path (get_aip_uuid mets) = some upath →
        (∀ s d, env.rsyncOk s d = true) →
        (import_aip env db p l pl).res =
          .ok (importedPackage env loc pl' path mets upath) ∧
        (import_aip env db p l pl).db =
          db.filter (fun q => !(q.uuid == get_aip_uuid mets)) ++
            [importedPackage env loc pl' path mets upath] ∧
        ∀ q ∈ (import_aip env db p l pl).db, q.uuid = get_aip_uuid mets →
          q = importedPackage env loc pl' path mets upath) := by
  have hconfirm : confirm_aip_exists env p = .ok () := by
    unfold confirm_aip_exists
    rw [h1]
    simp
  have hvalidate : validate env path = .ok () := by
    unfold validate
    rw [h3]
    simp
  have hmets : get_aip_mets_path env path = .ok mets := by
    unfold get_aip_mets_path
    rw [h4]
  have hne : db.filter (fun q => q.uuid == get_aip_uuid mets) ≠ [] := by
    intro hcon
    have hmem : pkgOld ∈ db.filter (fun q => q.uuid == get_aip_uuid mets) :=
      List.mem_filter.mpr ⟨hold, by simp [holdu]⟩
    rw [hcon] at hmem
    cases hmem
  have hany : db.any (fun q => q.uuid == get_aip_uuid mets) = true :=
    List.any_eq_true.mpr ⟨pkgOld, hold, by simp [holdu]⟩
  constructor
  · intro hc
    have hcheck : check_if_aip_already_exists db env (get_aip_uuid mets) =
        .error (.alreadyExists (get_aip_uuid mets)) := by
      unfold check_if_aip_already_exists
      rw [if_neg hne, hc]
      simp
    simp only [import_aip, hconfirm, h2, hvalidate, hmets, hcheck]
  · intro hc loc pl' upath h6 h7 h8 h9
    have hrun := import_run_ok env db p l pl loc pl' path mets upath mrest
      h1 h2 h3 h4 (Or.inr hc) h6 h7 h8 h9
    rw [hrun]
    refine ⟨rfl, ?_, ?_⟩
    · simp only [if_pos hany]
    · intro q hq hqu
      simp only [if_pos hany] at hq
      rcases List.mem_append.mp hq with hmem | hmem
      · have := (List.mem_filter.mp hmem).2
        rw [hqu] at this
        simp at this
      · simpa using hmem

theorem foldl_basename_no_slash : ∀ (l acc : List Char), (∀ x ∈ acc, x ≠ '/') →
    ∀ x ∈ l.foldl (fun acc c => if c = '/' then [] else acc ++ [c]) acc, x ≠ '/'
  | [], _, hacc => hacc
  | c :: l, acc, hacc => by
      simp only [List.foldl_cons]
      by_cases hc : c = '/'
      · rw [if_pos hc]
        exact foldl_basename_no_slash l [] (by simp)
      · rw [if_neg hc]
        refine foldl_basename_no_slash l (acc ++ [c]) ?_
        intro x hx
        rcases List.mem_append.mp hx with h | h
        · exact hacc x h
        · simp only [List.mem_singleton] at h
          rw [h]
          exact hc

/-- Embeds `os.path.basename` output never contains a separator. -/
theorem basename_no_slash (p : String) : ∀ x ∈ (basename p).data, x ≠ '/' := by
  intro x hx
  exact foldl_basename_no_slash p.data [] (by simp) x hx

/-- Joining a separator-free component interposes exactly one `'/'`. -/
theorem joinTwo_no_slash_comp (a b : List Char) (ha : a ≠ [])
    (hlast : a.getLast? ≠ some '/') (hb : ∀ x ∈ b, x ≠ '/') :
    joinTwo a b = a ++ '/' :: b := by
  have hhead : b.head? ≠ some '/' := by
    cases b with
    | nil => simp
    | cons y ys =>
      intro h
      simp only [List.head?, Option.some.injEq] at h
      exact hb y (List.mem_cons_self y ys) h
  unfold joinTwo
  rw [if_neg hhead, if_neg ha, if_neg hlast]

/-- C7: any successful import of a valid bag whose METS-derived UUID is
`e0a41934-c1d7-45ba-9a95-a7531c063ed1` creates a package whose
`current_path` begins with the first shard segments `e0a4/1934/`, whose
status is UPLOADED, whose type is AIP and whose size is the recalculated
(payload-sum) size of the bag. -/
theorem import_aip_sharded_package (env : ImportEnv) (db : List Package)
    (p l : String) (pl : Option String) (loc : Location) (pl' : Option String)
    (path mets upath : String) (mrest : List String)
    (h1 : env.pathExists p = true)
    (h2 : decompress_aip env p = .ok path)
    (h3 : env.bagValid path = true)
    (h4 : env.metsGlob path = mets :: mrest)
    (h5 : db.filter (fun q => q.uuid == get_aip_uuid mets) = [] ∨ env.userConfirms = true)
    (h6 : get_aip_storage_location env l = .ok loc)
    (h7 : get_pipeline env pl = .ok pl')
    (h8 : uuid_to_path (get_aip_uuid mets) = some upath)
    (h9 : ∀ s d, env.rsyncOk s d = true)
    (hu : get_aip_uuid mets = "e0a41934-c1d7-45ba-9a95-a7531c063ed1") :
    ∃ pkg, (import_aip env db p l pl).res = .ok pkg ∧
      pkg.uuid = "e0a41934-c1d7-45ba-9a95-a7531c063ed1" ∧
      (∃ rest : List Char, pkg.current_path.data = "e0a4/1934/".data ++ rest) ∧
      pkg.status = "UPLOADED" ∧
      pkg.package_type = "AIP" ∧
      pkg.size = recalculate_size (env.payload path) := by
  have hupath : upath = "e0a4/1934/c1d7/45ba/9a95/a753/1c06/3ed1" := by
    rw [hu] at h8
    have hconc : uuid_to_path "e0a41934-c1d7-45ba-9a95-a7531c063ed1" =
        some "e0a4/1934/c1d7/45ba/9a95/a753/1c06/3ed1" := by decide
    rw [hconc] at h8
    injection h8 with h8'
    exact h8'.symm
  have hrun := import_run_ok env db p l pl loc pl' path mets upath mrest
    h1 h2 h3 h4 h5 h6 h7 h8 h9
  refine ⟨importedPackage env loc pl' path mets upath, by rw [hrun], hu, ?_, rfl, rfl, rfl⟩
  subst hupath
  have hb := basename_no_slash (normpath path)
  have hj : joinTwo ("e0a4/1934/c1d7/45ba/9a95/a753/1c06/3ed1" : String).data
      (basename (normpath path)).data =
      ("e0a4/1934/c1d7/45ba/9a95/a753/1c06/3ed1" : String).data ++
        '/' :: (basename (normpath path)).data :=
    joinTwo_no_slash_comp _ _ (by decide) (by decide) hb
  refine ⟨("c1d7/45ba/9a95/a753/1c06/3ed1" : String).data ++
    '/' :: (basename (normpath path)).data, ?_⟩
  have hdata : (importedPackage env loc pl'
      path mets "e0a4/1934/c1d7/45ba/9a95/a753/1c06/3ed1").current_path.data =
      joinTwo ("e0a4/1934/c1d7/45ba/9a95/a753/1c06/3ed1" : String).data
        (basename (normpath path)).data := rfl
  rw [hdata, hj]
  have hsplit : ("e0a4/1934/c1d7/45ba/9a95/a753/1c06/3ed1" : String).data =
      ("e0a4/1934/" : String).data ++ ("c1d7/45ba/9a95/a753/1c06/3ed1" : String).data := by
    decide
  rw [hsplit, List.append_assoc]

/-- Concrete METS file path found in the extracted bag. -/
def metsW : String :=
  "/tmp/xyz/aip-dir/data/METS.e0a41934-c1d7-45ba-9a95-a7531c063ed1.xml"

/-- Concrete environment for a fully successful import run. -/
def envImport : ImportEnv :=
  { pathExists := fun _ => true, isFile := fun _ => true,
    extractResult := "/tmp/xyz/aip-dir", bagValid := fun _ => true,
    metsGlob := fun _ => [metsW],
    userConfirms := true, settingsDefaultAS := some "loc-1",
    locations := [⟨"loc-1", "/var/aipstore"⟩], pipelines := ["pipe-1"],
    rsyncOk := fun _ _ => true, payload := fun _ => [10, 20] }

/-- Same environment, but the operator declines the replacement prompt. -/
def envImportNoConfirm : ImportEnv :=
  { envImport with userConfirms := false }

/-- C2 witness: with `pkgOldW` already in the table, the unconfirmed run
aborts with the conflict error and no effects, the confirmed run replaces
the row. -/
theorem import_aip_duplicate_uuid_witness :
    import_aip envImportNoConfirm [pkgOldW] "/tmp/archive.tar.gz" "loc-1" none =
      ⟨[pkgOldW], [], .error (.alreadyExists (get_aip_uuid metsW))⟩ ∧
    (import_aip envImport [pkgOldW] "/tmp/archive.tar.gz" "loc-1" none).res =
      .ok pkgNewW ∧
    (import_aip envImport [pkgOldW] "/tmp/archive.tar.gz" "loc-1" none).db =
      [pkgNewW] := by
  have hA := import_aip_duplicate_uuid envImportNoConfirm [pkgOldW]
    "/tmp/archive.tar.gz" "loc-1" none "/tmp/xyz/aip-dir" metsW [] pkgOldW
    rfl (by decide) rfl rfl (by decide) (by decide)
  have hB := import_aip_duplicate_uuid envImport [pkgOldW]
    "/tmp/archive.tar.gz" "loc-1" none "/tmp/xyz/aip-dir" metsW [] pkgOldW
    rfl (by decide) rfl rfl (by decide) (by decide)
  have hB2 := hB.2 rfl ⟨"loc-1", "/var/aipstore"⟩ (some "pipe-1")
    "e0a4/1934/c1d7/45ba/9a95/a753/1c06/3ed1" (by decide) (by decide) (by decide)
    (fun _ _ => rfl)
  refine ⟨hA.1 rfl, ?_, ?_⟩
  · rw [hB2.1]
    decide
  · rw [hB2.2.1]
    decide

/-- C7 witness: the concrete scenario run. -/
theorem import_aip_sharded_package_witness :
    ∃ pkg, (import_aip envImport [] "/tmp/archive.tar.gz" "loc-1" none).res =
        .ok pkg ∧
      pkg.uuid = "e0a41934-c1d7-45ba-9a95-a7531c063ed1" ∧
      (∃ rest : List Char, pkg.current_path.data = "e0a4/1934/".data ++ rest) ∧
      pkg.status = "UPLOADED" ∧
      pkg.package_type = "AIP" ∧
      pkg.size = recalculate_size (envImport.payload "/tmp/xyz/aip-dir") :=
  import_aip_sharded_package envImport [] "/tmp/archive.tar.gz" "loc-1" none
    ⟨"loc-1", "/var/aipstore"⟩ (some "pipe-1") "/tmp/xyz/aip-dir" metsW
    "e0a4/1934/c1d7/45ba/9a95/a753/1c06/3ed1" [] rfl (by decide) rfl rfl
    (Or.inl (by decide)) (by decide) (by decide) (by decide) (fun _ _ => rfl)
    (by decide)

/-! ## Destination-directory creation and ownership normalisation -/

/-- Path `p` lies strictly below directory `d`. -/
def underDir (d p : String) : Bool :=
  (d.data ++ ['/']).isPrefixOf p.data

/-- Embeds `mkdir` (import_aip.py lines 182-187): `os.makedirs` raises `OSError`
when the target already exists; the handler then `shutil.rmtree`s the
existing destination (the directory and everything below it) and recreates
it empty.  The filesystem is a list of existing paths. -/
def mkdir (fs : List String) (aip_new_home : String) : List String :=
  if fs.contains aip_new_home then
    (fs.filter (fun p => !(p == aip_new_home || underDir aip_new_home p))) ++
      [aip_new_home]
  else fs ++ [aip_new_home]

/-- A destination directory that already exists, with one file inside. -/
def fsC4 : List String := ["/var/aipstore/e0a4", "/var/aipstore/e0a4/old.txt"]

/-- C4 counterexample: the placement step neither raises nor preserves a
pre-existing destination — `mkdir` completes normally and the file that
was under the destination is gone, although no overwrite was authorized
(there is no overwrite parameter at all). -/
theorem mkdir_overwrites_existing_destination :
    fsC4.contains "/var/aipstore/e0a4" = true ∧
    "/var/aipstore/e0a4/old.txt" ∈ fsC4 ∧
    mkdir fsC4 "/var/aipstore/e0a4" = ["/var/aipstore/e0a4"] ∧
    "/var/aipstore/e0a4/old.txt" ∉ mkdir fsC4 "/var/aipstore/e0a4" := by
  decide

theorem isPrefixOf_length_le : ∀ {l₁ l₂ : List Char},
    l₁.isPrefixOf l₂ = true → l₁.length ≤ l₂.length
  | [], _, _ => by simp
  | a :: l₁, [], h => by simp [List.isPrefixOf] at h
  | a :: l₁, b :: l₂, h => by
      simp only [List.isPrefixOf, Bool.and_eq_true] at h
      have := isPrefixOf_length_le h.2
      simpa using this

/-- C4 amended: when the destination directory already exists, `mkdir`
does not fail — it silently removes the whole existing destination tree
and recreates the directory empty, with no caller authorization involved. -/
theorem mkdir_existing_replaces (fs : List String) (d q : String)
    (hd : fs.contains d = true) (hq : underDir d q = true) :
    d ∈ mkdir fs d ∧ q ∉ mkdir fs d := by
  unfold mkdir
  rw [if_pos hd]
  constructor
  · exact List.mem_append_right _ (by simp)
  · intro hmem
    rcases List.mem_append.mp hmem with h | h
    · have := (List.mem_filter.mp h).2
      rw [hq] at this
      simp at this
    · simp only [List.mem_singleton] at h
      subst h
      unfold underDir at hq
      have hpre := isPrefixOf_length_le hq
      simp at hpre

/-- C4 amended witness. -/
theorem mkdir_existing_replaces_witness :
    fsC4.contains "/var/aipstore/e0a4" = true ∧
    underDir "/var/aipstore/e0a4" "/var/aipstore/e0a4/old.txt" = true ∧
    ("/var/aipstore/e0a4" ∈ mkdir fsC4 "/var/aipstore/e0a4" ∧
      "/var/aipstore/e0a4/old.txt" ∉ mkdir fsC4 "/var/aipstore/e0a4") :=
  ⟨by decide, by decide,
    mkdir_existing_replaces fsC4 "/var/aipstore/e0a4" "/var/aipstore/e0a4/old.txt"
      (by decide) (by decide)⟩

/-- A filesystem entry with POSIX ownership, for the `os.walk`/`os.chown`
loop of `fix_ownership`. -/
structure FsEntry where
  path : String
  isDir : Bool
  owner : Nat
  group : Nat
deriving DecidableEq, Repr

/-- Path `p` is the walk root itself or lies below it. -/
def inTree (root p : String) : Bool :=
  p == root || underDir root p

/-- Embeds `fix_ownership` (import_aip.py lines 190-200): walk
`join(aip_storage_location_path, uuid[0:4])`; every visited directory is
`chown`ed to `(am_uid, am_gid)`, but every file is `chown`ed with
`os.chown(..., am_uid, am_uid)` — the account's *uid* is passed where the
gid belongs (source line 200).  `amUid`/`amGid` model
`getpwnam('archivematica').pw_uid/pw_gid`. -/
def fix_ownership (amUid amGid : Nat) (aipUuid : String)
    (aip_storage_location_path : String) (fs : List FsEntry) : List FsEntry :=
  let first_uuid_dir := String.mk (aipUuid.data.take 4)
  let root := pathJoin aip_storage_location_path first_uuid_dir
  fs.map (fun e =>
    if inTree root e.path then
      if e.isDir then { e with owner := amUid, group := amGid }
      else { e with owner := amUid, group := amUid }
    else e)

/-- The copied tree: the shard directory and one payload file below it. -/
def fsC8 : List FsEntry :=
  [⟨"/var/aipstore/e0a4", true, 0, 0⟩,
   ⟨"/var/aipstore/e0a4/1934/c1d7/45ba/9a95/a753/1c06/3ed1/aip-dir/data/f.txt",
     false, 0, 0⟩]

/-- C8 evidence: run `fix_ownership` with distinct uid 333 and gid 334 for
the service account.  The directory receives `(333, 334)` as the claim
says, but the file receives `(333, 333)`: its group is set to the uid,
not the gid, so files are not owned by the account's group. -/
theorem fix_ownership_file_group_is_uid :
    fix_ownership 333 334 "e0a41934-c1d7-45ba-9a95-a7531c063ed1" "/var/aipstore" fsC8 =
      [⟨"/var/aipstore/e0a4", true, 333, 334⟩,
       ⟨"/var/aipstore/e0a4/1934/c1d7/45ba/9a95/a753/1c06/3ed1/aip-dir/data/f.txt",
         false, 333, 333⟩] ∧
    (333 : Nat) ≠ 334 := by
  constructor
  · decide
  · decide

/-! ## METS/PREMIS provenance events (utils.py lines 147-248) -/

def metsNS : String := "http://www.loc.gov/METS/"

def premisNS : String := "info:lc/xmlns/premis-v2"

/-- A namespaced XML element with direct text content and children
(attributes such as `ID`/`MDTYPE` are irrelevant to agent deduplication
and are not modelled). -/
inductive Xml where
  | el (ns tag text : String) (children : List Xml)

/-- Does an element equal `<ns:tag>txt</ns:tag>` (direct comparison used
by the xpath value predicates)? -/
def childTextIs (ns tag txt : String) : Xml → Bool
  | .el n t x _ => n == ns && t == tag && x == txt

/-- Does this element match
`ns:agentIdentifier[ns:agentIdentifierType='t' and ns:agentIdentifierValue='v']`? -/
def agentIdMatches (ns agent_type agent_value : String) : Xml → Bool
  | .el n t _ children =>
      n == ns && t == "agentIdentifier" &&
      children.any (childTextIs ns "agentIdentifierType" agent_type) &&
      children.any (childTextIs ns "agentIdentifierValue" agent_value)

mutual

/-- The `.//ns:agentIdentifier[...]` descendant search under one element. -/
def xmlHasAgentId (ns agent_type agent_value : String) : Xml → Bool
  | .el n t x children =>
      agentIdMatches ns agent_type agent_value (.el n t x children) ||
      xmlListHasAgentId ns agent_type agent_value children

/-- Descendant search over a node list (e.g. an amdSec's children). -/
def xmlListHasAgentId (ns agent_type agent_value : String) : List Xml → Bool
  | [] => false
  | c :: cs =>
      xmlHasAgentId ns agent_type agent_value c ||
      xmlListHasAgentId ns agent_type agent_value cs

end

mutual

/-- Count of matching `agentIdentifier` descendants under one element. -/
def countAgentIdX (ns agent_type agent_value : String) : Xml → Nat
  | .el n t x children =>
      (if agentIdMatches ns agent_type agent_value (.el n t x children) then 1 else 0) +
      countAgentIdL ns agent_type agent_value children

/-- Count of matching `agentIdentifier` descendants under a node list. -/
def countAgentIdL (ns agent_type agent_value : String) : List Xml → Nat
  | [] => 0
  | c :: cs =>
      countAgentIdX ns agent_type agent_value c +
      countAgentIdL ns agent_type agent_value cs

end

/-- Embeds `mets_event` (utils.py lines 170-214): the PREMIS:EVENT wrapped in a
METS `digiprovMD`.  The generated event UUID and timestamp are passed in
as parameters (`evUuid`, `now`). -/
def mets_event (event_type event_detail event_outcome_detail_note
    agent_type agent_value evUuid now : String) : Xml :=
  .el metsNS "digiprovMD" "" [
    .el metsNS "mdWrap" "" [
      .el metsNS "xmlData" "" [
        .el premisNS "event" "" [
          .el premisNS "eventIdentifier" "" [
            .el premisNS "eventIdentifierType" "UUID" [],
            .el premisNS "eventIdentifierValue" evUuid []],
          .el premisNS "eventType" event_type [],
          .el premisNS "eventDateTime" now [],
          .el premisNS "eventDetail" event_detail [],
          .el premisNS "eventOutcomeInformation" "" [
            .el premisNS "eventOutcome" "" [],
            .el premisNS "eventOutcomeDetail" "" [
              .el premisNS "eventOutcomeDetailNote" event_outcome_detail_note []]],
          .el premisNS "linkingAgentIdentifier" "" [
            .el premisNS "linkingAgentIdentifierType" agent_type [],
            .el premisNS "linkingAgentIdentifierValue" agent_value []]]]]]

/-- Embeds `mets_ss_agent` (utils.py lines 217-248): before inserting, search the
document with the xpath
`.//mets:agentIdentifier[mets:agentIdentifierType=... and
mets:agentIdentifierValue=...]` — note the **mets** namespace prefix —
and return nothing when a match exists; the agent element it builds,
however, uses the **premis** namespace for `agentIdentifier` and its
children. -/
def mets_ss_agent (xml : List Xml) (agent_value agent_type : String) : Option Xml :=
  if xmlListHasAgentId metsNS agent_type agent_value xml then none
  else some (.el metsNS "digiprovMD" "" [
    .el metsNS "mdWrap" "" [
      .el metsNS "xmlData" "" [
        .el premisNS "agent" "" [
          .el premisNS "agentIdentifier" "" [
            .el premisNS "agentIdentifierType" agent_type [],
            .el premisNS "agentIdentifierValue" agent_value []],
          .el premisNS "agentName" "Archivematica Storage Service" [],
          .el premisNS "agentType" "software" []]]]])

/-- Embeds `mets_add_event` (utils.py lines 147-167): append the PREMIS:EVENT,
then append the storage-service PREMIS:AGENT unless `mets_ss_agent`
reports it as already present.  An amdSec is modelled by its child list. -/
def mets_add_event (amdsec : List Xml) (event_type event_detail
    event_outcome_detail_note agent_value evUuid now : String) : List Xml :=
  let amdsec1 := amdsec ++
    [mets_event event_type event_detail event_outcome_detail_note
      "storage service" agent_value evUuid now]
  match mets_ss_agent amdsec1 agent_value "storage service" with
  | none => amdsec1
  | some ag => amdsec1 ++ [ag]

/-- An amdSec after two `mets_add_event` calls with the same (default)
storage-service agent. -/
def amdsecTwice : List Xml :=
  mets_add_event
    (mets_add_event [] "validation" "" "" "Archivematica Storage Service-0.11.0"
      "11111111-1111-1111-1111-111111111111" "2018-01-01T00:00:00")
    "ingestion" "" "" "Archivematica Storage Service-0.11.0"
    "22222222-2222-2222-2222-222222222222" "2018-01-01T00:00:01"

/-- C9 evidence: after two `mets_add_event` calls the document holds two
PREMIS agents with the identical (identifier type, identifier value) pair:
the dedup xpath looks for `mets:agentIdentifier` while the inserted agents
are `premis:agentIdentifier`, so the check never matches and a duplicate
is appended. -/
theorem mets_add_event_duplicates_agents :
    countAgentIdL premisNS "storage service" "Archivematica Storage Service-0.11.0"
      amdsecTwice = 2 := by
  simp [amdsecTwice, mets_add_event, mets_ss_agent, mets_event,
    xmlListHasAgentId, xmlHasAgentId, agentIdMatches, childTextIs,
    countAgentIdL, countAgentIdX, metsNS, premisNS]
